import Mathlib

/-!
Shallow embedding of the taskgraph engine (`src/taskgraph/taskgraph.py`) and of
its persistence gate (`src/backend/database.py`), together with theorems that
check the specification's claims about them.

Modelling conventions:

* Python `dict`s are association lists that preserve insertion order, exactly
  like CPython dicts: assigning to an existing key updates it in place,
  assigning to a fresh key appends it at the end, `pop` deletes the binding.
* Timestamps (Python floats produced by `time.time()`) are modelled as `Int`;
  only their ordering is ever used by the code.
* `uuid.uuid4()`-generated identifiers are natural numbers supplied explicitly
  by the caller of each operation; freshness, where it matters, is an explicit
  hypothesis.
* A Python method that can raise is modelled as returning
  `Option PyErr × σ`: the exception raised (if any) together with the state at
  the moment the exception escapes the method, so that partial mutation before
  a raise is represented faithfully.
* The `networkx.DiGraph` is modelled by an explicit node list and edge list;
  the only operations the source uses are `add_node`, `add_edge`,
  `remove_node`, `predecessors`, `successors`, membership, and `nodes`.
-/

/-- The Python exceptions the modelled code can raise: `KeyError` from dict
subscription or `pop`, `ValueError` raised explicitly by the engine (the
specification's `InvalidState`), and `networkx.NetworkXError` from graph
operations on absent nodes (the specification's `NotFound` for tasks). -/
inductive PyErr : Type where
  | keyError : PyErr
  | valueError : PyErr
  | networkxError : PyErr
  deriving DecidableEq, Repr

/-- Dict lookup: `d[k]` / `k in d`. -/
def alookup {β : Type} : List (Nat × β) → Nat → Option β
  | [], _ => none
  | (k, v) :: rest, key => if k = key then some v else alookup rest key

/-- Dict assignment `d[k] = v`: updates the existing binding in place, or
appends a new binding at the end (CPython insertion-order semantics). -/
def aset {β : Type} : List (Nat × β) → Nat → β → List (Nat × β)
  | [], key, val => [(key, val)]
  | (k, v) :: rest, key, val =>
      if k = key then (k, val) :: rest else (k, v) :: aset rest key val

/-- Dict deletion `d.pop(k)` (the binding removal part). -/
def aerase {β : Type} : List (Nat × β) → Nat → List (Nat × β)
  | [], _ => []
  | (k, v) :: rest, key => if k = key then rest else (k, v) :: aerase rest key

namespace TaskStatus

/-- `TaskStatus.done.value` -/
def done : String := "Done"

/-- `TaskStatus.active.value` -/
def active : String := "Active"

/-- `TaskStatus.pending.value` -/
def pending : String := "Pending"

/-- `TaskStatus.snoozed.value` -/
def snoozed : String := "Snoozed"

end TaskStatus

/-- `IssueStatus.open.value` -/
def IssueStatus.open : String := "Open"

/-- `IssueStatus.closed.value` -/
def IssueStatus.closed : String := "Closed"

/-- `TaskGraphIssue` (pydantic model): issue item data. -/
structure TaskGraphIssue : Type where
  title : String
  status : String
  description : Option String := none
  labels : Option (List String) := none
  close_reason : Option String := none
  time_close : Option Int := none
  last_modify : Option Int := none
  deriving DecidableEq, Repr

/-- `TaskGraphTaskMetadataItem` (pydantic model): metadata attached to a task
node.  All fields default to `None`. -/
structure TaskGraphTaskMetadataItem : Type where
  name : Option String := none
  detail : Option String := none
  status : Option String := none
  wake_after : Option Int := none
  snooze_reason : Option String := none
  remind_after : Option Int := none
  last_modify : Option Int := none
  time_done : Option Int := none
  issues : Option (List (Nat × TaskGraphIssue)) := none
  deriving DecidableEq, Repr

/-- The directed graph underlying a project (`networkx.DiGraph`), reduced to
the operations the source uses. -/
structure Dag : Type where
  nodes : List Nat
  edges : List (Nat × Nat)
  deriving DecidableEq, Repr

/-- `DiGraph.add_node`: a no-op when the node is already present. -/
def Dag.add_node (g : Dag) (n : Nat) : Dag :=
  if n ∈ g.nodes then g else { g with nodes := g.nodes ++ [n] }

/-- `DiGraph.add_edge u v`: adds missing endpoints as nodes, then the edge
`u → v`; adding an existing edge is a no-op (no parallel edges in a DiGraph;
the edge `id` attribute the source attaches is never read and is omitted). -/
def Dag.add_edge (g : Dag) (u v : Nat) : Dag :=
  let g1 := (g.add_node u).add_node v
  if (u, v) ∈ g1.edges then g1 else { g1 with edges := g1.edges ++ [(u, v)] }

/-- `DiGraph.predecessors n`: sources of edges into `n`. -/
def Dag.predecessors (g : Dag) (n : Nat) : List Nat :=
  (g.edges.filter (fun e => e.2 = n)).map (fun e => e.1)

/-- `DiGraph.successors n`: targets of edges out of `n`. -/
def Dag.successors (g : Dag) (n : Nat) : List Nat :=
  (g.edges.filter (fun e => e.1 = n)).map (fun e => e.2)

/-- `DiGraph.remove_node n`: removes the node and all incident edges (callers
in the modelled code only reach this with `n` present). -/
def Dag.remove_node (g : Dag) (n : Nat) : Dag :=
  { nodes := g.nodes.filter (fun m => m ≠ n),
    edges := g.edges.filter (fun e => e.1 ≠ n ∧ e.2 ≠ n) }

/-- `TaskGraphProject`: name, DAG and the per-task metadata dict.  The derived
`statistics` snapshot is omitted: it is never serialized and no modelled
operation reads it. -/
structure TaskGraphProject : Type where
  name : String
  dag : Dag
  metadata : List (Nat × TaskGraphTaskMetadataItem)
  deriving DecidableEq, Repr

namespace TaskGraphProject

/-- `self.metadata[u].status = st` for a task known to have metadata (a no-op
on absent tasks; every use below is guarded by a preceding lookup). -/
def set_task_status (p : TaskGraphProject) (u : Nat) (st : String) :
    TaskGraphProject :=
  match alookup p.metadata u with
  | none => p
  | some m => { p with metadata := aset p.metadata u { m with status := some st } }

/-- `TaskGraphProject.__check_snoozed` evaluated at current time `now`. -/
def check_snoozed (p : TaskGraphProject) (now : Int) (u : Nat) :
    Except PyErr Bool :=
  match alookup p.metadata u with
  | none => .error .keyError
  | some m =>
      if m.status = some TaskStatus.snoozed then
        match m.wake_after with
        | none => .error .valueError
        | some w => if now > w then .ok false else .ok true
      else .ok false

/-- The predecessor walk inside `resolve_dependency`: scans the predecessor
list in order, stops at the first task whose status is not `Done`; looking up
a predecessor with no metadata entry raises `KeyError`. -/
def all_dependency_resolved (p : TaskGraphProject) :
    List Nat → Except PyErr Bool
  | [] => .ok true
  | n :: rest =>
      match alookup p.metadata n with
      | none => .error .keyError
      | some m =>
          if m.status = some TaskStatus.done then all_dependency_resolved p rest
          else .ok false

/-- `TaskGraphProject.resolve_dependency` evaluated at current time `now`. -/
def resolve_dependency (p : TaskGraphProject) (now : Int) (u : Nat) :
    Option PyErr × TaskGraphProject :=
  match alookup p.metadata u with
  | none => (none, p)  -- rule -1: task absent, warn and return
  | some m =>
      if m.status = some TaskStatus.done then (none, p)  -- rule 0
      else
        match check_snoozed p now u with
        | .error e => (some e, p)
        | .ok true => (none, p)  -- rule 1: remain snoozed
        | .ok false =>
            match all_dependency_resolved p (p.dag.predecessors u) with
            | .error e => (some e, p)
            | .ok b =>
                (none, p.set_task_status u
                  (if b then TaskStatus.active else TaskStatus.pending))

/-- `for node in nodes: self.resolve_dependency(node)` — an exception escapes
with the mutations of the earlier iterations kept. -/
def resolve_list (p : TaskGraphProject) (now : Int) :
    List Nat → Option PyErr × TaskGraphProject
  | [] => (none, p)
  | n :: rest =>
      match resolve_dependency p now n with
      | (some e, p1) => (some e, p1)
      | (none, p1) => resolve_list p1 now rest

/-- `TaskGraphProject.add_dependency task dep`: adds the edge `dep → task`
and then sets `task`'s status to Pending (raising `KeyError` after the edge
is added if `task` has no metadata entry). -/
def add_dependency (p : TaskGraphProject) (task_uuid dep : Nat) :
    Option PyErr × TaskGraphProject :=
  let p1 : TaskGraphProject := { p with dag := p.dag.add_edge dep task_uuid }
  match alookup p1.metadata task_uuid with
  | none => (some .keyError, p1)
  | some m =>
      (none, { p1 with
        metadata := aset p1.metadata task_uuid
          { m with status := some TaskStatus.pending } })

/-- `TaskGraphProject.add_sub_task parent meta` at current time `now`, with
the fresh `uuid4` value passed in as `task_uuid` (which is also the returned
new task id). -/
def add_sub_task (p : TaskGraphProject) (now : Int) (parent : Nat)
    (task_uuid : Nat) (meta : Option TaskGraphTaskMetadataItem) :
    Option PyErr × TaskGraphProject :=
  let m0 : TaskGraphTaskMetadataItem := meta.getD {}
  let p1 : TaskGraphProject := { p with metadata := aset p.metadata task_uuid m0 }
  let p2 : TaskGraphProject := { p1 with dag := p1.dag.add_node task_uuid }
  match p2.add_dependency parent task_uuid with
  | (some e, p3) => (some e, p3)
  | (none, p3) =>
      match alookup p3.metadata task_uuid with
      | none => (some .keyError, p3)
      | some m =>
          (none, { p3 with
            metadata := aset p3.metadata task_uuid
              { m with status := some TaskStatus.active,
                       last_modify := some now } })

/-- `TaskGraphProject.remove_task` at current time `now`: `dag.successors`
raises `NetworkXError` when the node is absent; otherwise the successor list
is captured, the node and its metadata are removed (`metadata.pop` raising
`KeyError` when no entry exists), and every captured successor is resolved. -/
def remove_task (p : TaskGraphProject) (now : Int) (u : Nat) :
    Option PyErr × TaskGraphProject :=
  if u ∈ p.dag.nodes then
    let super_tasks := p.dag.successors u
    let p1 : TaskGraphProject := { p with dag := p.dag.remove_node u }
    match alookup p1.metadata u with
    | none => (some .keyError, p1)
    | some _ =>
        resolve_list { p1 with metadata := aerase p1.metadata u } now super_tasks
  else (some .networkxError, p)

/-- `TaskGraphProject.task_done` at current time `now`. -/
def task_done (p : TaskGraphProject) (now : Int) (u : Nat) :
    Option PyErr × TaskGraphProject :=
  match alookup p.metadata u with
  | none => (some .keyError, p)
  | some m =>
      let p1 : TaskGraphProject := { p with
        metadata := aset p.metadata u
          { m with status := some TaskStatus.done, time_done := some now } }
      if u ∈ p1.dag.nodes then
        resolve_list p1 now (p1.dag.successors u)
      else (some .networkxError, p1)

/-- `TaskGraphProject.task_snooze`. -/
def task_snooze (p : TaskGraphProject) (u : Nat) (snooze_until : Int)
    (reason : Option String) : Option PyErr × TaskGraphProject :=
  match alookup p.metadata u with
  | none => (some .keyError, p)
  | some m =>
      (none, { p with
        metadata := aset p.metadata u
          { m with status := some TaskStatus.snoozed,
                   wake_after := some snooze_until,
                   snooze_reason := reason } })

/-- `TaskGraphProject.task_open_issue` at current time `now`, with the fresh
`uuid4` value passed in as `issue_uuid`. -/
def task_open_issue (p : TaskGraphProject) (now : Int) (u : Nat)
    (issue_uuid : Nat) (title : String) (description : Option String) :
    Option PyErr × TaskGraphProject :=
  match alookup p.metadata u with
  | none => (some .keyError, p)
  | some m =>
      let issues0 := m.issues.getD []
      let issue_data : TaskGraphIssue :=
        { title := title, status := IssueStatus.open,
          description := description, last_modify := some now }
      (none, { p with
        metadata := aset p.metadata u
          { m with issues := some (aset issues0 issue_uuid issue_data) } })

/-- `TaskGraphProject.purge_metadata`: keeps, in DAG-node order, exactly the
metadata entries whose task id is a DAG node. -/
def purge_metadata_go (md : List (Nat × TaskGraphTaskMetadataItem)) :
    List Nat → List (Nat × TaskGraphTaskMetadataItem)
  | [] => []
  | n :: rest =>
      match alookup md n with
      | some m => (n, m) :: purge_metadata_go md rest
      | none => purge_metadata_go md rest

/-- `TaskGraphProject.purge_metadata`. -/
def purge_metadata (p : TaskGraphProject) : TaskGraphProject :=
  { p with metadata := purge_metadata_go p.metadata p.dag.nodes }

/-- `TaskGraphProject.get_data_hash`: `sha256(serialize())`.  The canonical
serialization contains exactly the name, the DAG and the metadata dict, which
is the whole `TaskGraphProject` record, so in the model the hash of a project
is represented by the serialized content itself (hash equality is content
equality; collisions are not modelled). -/
def get_data_hash (p : TaskGraphProject) : TaskGraphProject := p

end TaskGraphProject

/-- `EventTaskWakeUp` (pydantic model): wake-up event payload. -/
structure EventTaskWakeUp : Type where
  project_uuid : Nat
  task_uuid : Nat
  deriving DecidableEq, Repr

/-- A heap entry `(timestamp, event_uuid, event_type)`, ordered by Python's
lexicographic tuple comparison. -/
abbrev HeapEntry : Type := Int × Nat × String

/-- Python tuple `<` on `(timestamp, event_uuid, event_type)`. -/
def entryLt (a b : HeapEntry) : Bool :=
  decide (a.1 < b.1) ||
    (decide (a.1 = b.1) &&
      (decide (a.2.1 < b.2.1) ||
        (decide (a.2.1 = b.2.1) && decide (a.2.2 < b.2.2))))

/-- `heapq.heappush`, abstracted: the source only ever uses `heappush`,
`heappop` and `heap[0]` (peek-min), so the binary heap is modelled by its
observable contract, a list kept sorted by `entryLt`; `heappush` inserts in
order, `heappop` removes the head, `heap[0]` is the head. -/
def heappush : List HeapEntry → HeapEntry → List HeapEntry
  | [], e => [e]
  | x :: xs, e => if entryLt e x then e :: x :: xs else x :: heappush xs e

/-- The joint state the scheduler operates on: the `TaskGraph`'s project dict
together with the scheduler's `event_heap` and `event_map`. -/
structure SchedulerState : Type where
  projects : List (Nat × TaskGraphProject)
  event_heap : List HeapEntry
  event_map : List (Nat × EventTaskWakeUp)
  deriving DecidableEq, Repr

namespace SchedulerState

/-- `TaskGraphScheduler.schedule` with the fresh `uuid4` value passed in as
`event_uuid`: pushes onto the heap and records the payload in the map. -/
def schedule (s : SchedulerState) (timestamp : Int) (event_uuid : Nat)
    (event_type : String) (event_data : EventTaskWakeUp) : SchedulerState :=
  { s with
    event_heap := heappush s.event_heap (timestamp, event_uuid, event_type),
    event_map := aset s.event_map event_uuid event_data }

/-- `TaskGraphScheduler.__process_event` at current time `now`: for a
`wake_up` event, looks up the payload (`KeyError` if absent), silently
returns when the referenced project or task no longer exists, and otherwise
resolves the referenced task in the referenced project. -/
def process_event (s : SchedulerState) (now : Int) (event_uuid : Nat)
    (event_type : String) : Option PyErr × SchedulerState :=
  if event_type = "wake_up" then
    match alookup s.event_map event_uuid with
    | none => (some .keyError, s)
    | some ev =>
        match alookup s.projects ev.project_uuid with
        | none => (none, s)
        | some target_project =>
            match alookup target_project.metadata ev.task_uuid with
            | none => (none, s)
            | some _ =>
                let r := target_project.resolve_dependency now ev.task_uuid
                (r.1, { s with projects := aset s.projects ev.project_uuid r.2 })
  else (none, s)

/-- One iteration of the inner loop of `TaskGraphScheduler.periodic_check` at
current time `now`: peek `event_heap[0]`; if `now > timestamp`, process the
event and then pop it from both the heap and the map; otherwise do nothing
(the loop breaks).  An exception escaping `__process_event` propagates before
the pops. -/
def periodic_check_step (s : SchedulerState) (now : Int) :
    Option PyErr × SchedulerState :=
  match s.event_heap with
  | [] => (none, s)
  | first_event :: _rest =>
      if now > first_event.1 then
        match s.process_event now first_event.2.1 first_event.2.2 with
        | (some e, s1) => (some e, s1)
        | (none, s1) =>
            (none, { s1 with
              event_heap := s1.event_heap.tail,
              event_map := aerase s1.event_map first_event.2.1 })
      else (none, s)

/-- Event ids present in the heap. -/
def heap_ids (s : SchedulerState) : List Nat :=
  s.event_heap.map (fun e => e.2.1)

/-- Event ids present in the side table. -/
def map_ids (s : SchedulerState) : List Nat :=
  s.event_map.map (fun e => e.1)

/-- The heap/side-table synchronisation invariant: event ids are unique and
the heap and the map hold exactly the same ids. -/
def in_sync (s : SchedulerState) : Prop :=
  (heap_ids s).Nodup ∧ (heap_ids s).Perm (map_ids s)

/-- The heap-order invariant: the list is sorted, so the head is the minimum
under the `(timestamp, event_id)` order. -/
def heap_sorted (s : SchedulerState) : Prop :=
  s.event_heap.Pairwise (fun a b => entryLt b a = false)

end SchedulerState

/-- The state of `TaskGraphDatabaseManager` relevant to saving: the
`TaskGraph`'s project dict, the `project_hashes` dict, the contents of the
per-project files (keyed by project id), and the top-level index file
(modelled by the list of project ids it records). -/
structure DatabaseState : Type where
  projects : List (Nat × TaskGraphProject)
  project_hashes : List (Nat × TaskGraphProject)
  files : List (Nat × TaskGraphProject)
  index_file : Option (List Nat)
  deriving DecidableEq, Repr

namespace DatabaseState

/-- `TaskGraphDatabaseManager.save_project`: skip the write when
`check_hash` is set and the stored hash matches the current data hash;
otherwise purge metadata, write the serialized project, and record the new
hash.  The third component reports whether a project file write happened
(`KeyError` when the project id is unknown). -/
def save_project (db : DatabaseState) (project_id : Nat) (check_hash : Bool) :
    Option PyErr × DatabaseState × Bool :=
  match alookup db.projects project_id with
  | none => (some .keyError, db, false)
  | some project =>
      if check_hash &&
          (match alookup db.project_hashes project_id with
           | some h => decide (h = project.get_data_hash)
           | none => false) then
        (none, db, false)
      else
        let project1 := project.purge_metadata
        let db1 : DatabaseState :=
          { db with projects := aset db.projects project_id project1 }
        let db2 : DatabaseState :=
          { db1 with files := aset db1.files project_id project1 }
        (none, { db2 with
          project_hashes :=
            aset db2.project_hashes project_id project1.get_data_hash }, true)

/-- `TaskGraphDatabaseManager.save_projects`, iterating over the given key
list; the third component counts project file writes. -/
def save_projects_go (db : DatabaseState) (check_hash : Bool) :
    List Nat → Option PyErr × DatabaseState × Nat
  | [] => (none, db, 0)
  | project_id :: rest =>
      match save_project db project_id check_hash with
      | (some e, db1, _) => (some e, db1, 0)
      | (none, db1, wrote) =>
          match save_projects_go db1 check_hash rest with
          | (e, db2, n) => (e, db2, (if wrote then 1 else 0) + n)

/-- `TaskGraphDatabaseManager.save_projects`: saves every project of the
`TaskGraph` in dict order. -/
def save_projects (db : DatabaseState) (check_hash : Bool) :
    Option PyErr × DatabaseState × Nat :=
  save_projects_go db check_hash (db.projects.map (fun e => e.1))

/-- `TaskGraphDatabaseManager.save_database`: saves every project (per the
hash-gated rule) and then writes the top-level index file. -/
def save_database (db : DatabaseState) (check_hash : Bool) :
    Option PyErr × DatabaseState × Nat :=
  match save_projects db check_hash with
  | (some e, db1, n) => (some e, db1, n)
  | (none, db1, n) =>
      (none, { db1 with index_file := some (db1.projects.map (fun e => e.1)) }, n)

end DatabaseState

/-- The predicate of the claim's rule 4: every direct predecessor of `u` in
the DAG has status Done (trivially true with no predecessors). -/
def every_predecessor_done (p : TaskGraphProject) (u : Nat) : Bool :=
  (p.dag.predecessors u).all (fun v =>
    match alookup p.metadata v with
    | some m => decide (m.status = some TaskStatus.done)
    | none => false)

/-- The fall-through case of the claim's rule ladder: status becomes Active
when every direct predecessor is Done, Pending otherwise. -/
def resolve_spec_fall (p : TaskGraphProject) (u : Nat) :
    Option PyErr × TaskGraphProject :=
  (none, p.set_task_status u
    (if every_predecessor_done p u then TaskStatus.active else TaskStatus.pending))

/-- The fixed rule ladder exactly as claim C1 states it, written from the
specification's words (§4.1): no metadata entry → no change, no error; Done →
no change; Snoozed without `wake_after` → `InvalidState` error; Snoozed with
`now ≤ wake_after` → no change; otherwise fall through to the predecessor
rule. -/
def resolve_spec (p : TaskGraphProject) (now : Int) (u : Nat) :
    Option PyErr × TaskGraphProject :=
  match alookup p.metadata u with
  | none => (none, p)
  | some m =>
      if m.status = some TaskStatus.done then (none, p)
      else if m.status = some TaskStatus.snoozed then
        match m.wake_after with
        | none => (some .valueError, p)
        | some w => if now ≤ w then (none, p) else resolve_spec_fall p u
      else resolve_spec_fall p u

/-- Invoking `task_snooze` on one project of the joint state, as the API
layer does (`main.py`, `modify_project`, `snooze_task` branch — the separate
`schedule` call the caller then makes is not part of the method): only the
addressed project is replaced; the scheduler's heap and map are neither read
nor written by the method. -/
def SchedulerState.state_task_snooze (s : SchedulerState) (pid u : Nat)
    (snooze_until : Int) (reason : Option String) :
    Option PyErr × SchedulerState :=
  match alookup s.projects pid with
  | none => (some .keyError, s)
  | some proj =>
      match proj.task_snooze u snooze_until reason with
      | (e, proj1) => (e, { s with projects := aset s.projects pid proj1 })

theorem alookup_aset_self {β : Type} (l : List (Nat × β)) (k : Nat) (v : β) :
    alookup (aset l k v) k = some v := by
  induction l with
  | nil => simp [aset, alookup]
  | cons x rest ih =>
      by_cases h : x.1 = k
      · simp [aset, alookup, h]
      · simp [aset, alookup, h, ih]

theorem alookup_aset_ne {β : Type} (l : List (Nat × β)) (k k' : Nat) (v : β)
    (h : k ≠ k') : alookup (aset l k v) k' = alookup l k' := by
  induction l with
  | nil => simp [aset, alookup, h]
  | cons x rest ih =>
      by_cases hx : x.1 = k
      · subst hx
        simp [aset, alookup, h, ih]
      · simp only [aset, if_neg hx, alookup]
        by_cases hx' : x.1 = k'
        · simp [hx']
        · simp [hx', ih]

theorem all_dependency_resolved_eq (p : TaskGraphProject) (l : List Nat)
    (h : ∀ v ∈ l, (alookup p.metadata v).isSome) :
    p.all_dependency_resolved l =
      .ok (l.all (fun v =>
        match alookup p.metadata v with
        | some m => decide (m.status = some TaskStatus.done)
        | none => false)) := by
  induction l with
  | nil => rfl
  | cons n rest ih =>
      have hn := h n (by simp)
      cases hm : alookup p.metadata n with
      | none => rw [hm] at hn; simp at hn
      | some m =>
          simp only [TaskGraphProject.all_dependency_resolved, hm, List.all_cons]
          by_cases hd : m.status = some TaskStatus.done
          · simp [hd, ih (fun v hv => h v (List.mem_cons_of_mem _ hv))]
          · simp [hd]

/-- C1: `resolve_dependency(task)` implements exactly the fixed rule ladder:
no metadata entry → no change, no error; status Done → no change; status
Snoozed without `wake_after` → `InvalidState` (`ValueError`) failure; status
Snoozed with current time ≤ `wake_after` → remain Snoozed unchanged;
otherwise (fall-through and all remaining cases) status becomes Active when
every direct predecessor is Done (trivially so with no predecessors) and
Pending otherwise.  The hypothesis is the data-model invariant (§3) that every
predecessor node has a metadata entry. -/
theorem resolve_dependency_implements_rule_ladder
    (p : TaskGraphProject) (now : Int) (u : Nat)
    (hpred : ∀ v ∈ p.dag.predecessors u, (alookup p.metadata v).isSome) :
    p.resolve_dependency now u = resolve_spec p now u := by
  unfold TaskGraphProject.resolve_dependency resolve_spec
  cases hm : alookup p.metadata u with
  | none => rfl
  | some m =>
      by_cases hd : m.status = some TaskStatus.done
      · simp [hd]
      · simp only [hd, if_false, TaskGraphProject.check_snoozed, hm]
        by_cases hs : m.status = some TaskStatus.snoozed
        · simp only [hs, if_true]
          cases hw : m.wake_after with
          | none => rfl
          | some w =>
              by_cases hnow : now > w
              · have : ¬ now ≤ w := by omega
                simp only [hnow, if_true, this, if_false,
                  all_dependency_resolved_eq p _ hpred]
                rfl
              · have : now ≤ w := by omega
                simp [hnow, this]
        · simp only [hs, if_false,
            all_dependency_resolved_eq p _ hpred]
          rfl

/-- Witness for C1 at a concrete input: a two-task project where task 1
depends on the Done task 0. -/
theorem resolve_dependency_implements_rule_ladder_witness :
    TaskGraphProject.resolve_dependency
      { name := "p", dag := { nodes := [0, 1], edges := [(0, 1)] },
        metadata := [(0, { status := some "Done" }),
                     (1, { status := some "Pending" })] } 5 1
    = resolve_spec
      { name := "p", dag := { nodes := [0, 1], edges := [(0, 1)] },
        metadata := [(0, { status := some "Done" }),
                     (1, { status := some "Pending" })] } 5 1 :=
  resolve_dependency_implements_rule_ladder _ 5 1 (by decide)

/-- C3: `add_dependency(task, dep)` adds the edge `dep → task` and
unconditionally sets `task`'s status to Pending — there is no hypothesis on
`dep` (it need not exist, and may have any status, Done included) nor on
`task`'s previous status (Done or Snoozed included) — and performs no
resolution: `task`'s other metadata fields and every other task's metadata
are untouched. -/
theorem add_dependency_always_forces_pending
    (p : TaskGraphProject) (task dep : Nat) (mt : TaskGraphTaskMetadataItem)
    (hmt : alookup p.metadata task = some mt) :
    (p.add_dependency task dep).1 = none ∧
    (p.add_dependency task dep).2.dag = p.dag.add_edge dep task ∧
    alookup (p.add_dependency task dep).2.metadata task
      = some { mt with status := some TaskStatus.pending } ∧
    (∀ v, v ≠ task →
      alookup (p.add_dependency task dep).2.metadata v = alookup p.metadata v) := by
  have hshape : p.add_dependency task dep =
      (none, { p with dag := p.dag.add_edge dep task,
                      metadata := aset p.metadata task
                        { mt with status := some TaskStatus.pending } }) := by
    unfold TaskGraphProject.add_dependency
    simp [hmt]
  refine ⟨by rw [hshape], by rw [hshape], ?_, ?_⟩
  · rw [hshape]
    exact alookup_aset_self _ _ _
  · intro v hv
    rw [hshape]
    exact alookup_aset_ne _ _ _ _ (fun h => hv h.symm)

/-- Witness for C3 at a concrete input: `task = 1` is currently Done and
`dep = 0` is also already Done; the edge is still added and task 1 is still
forced to Pending. -/
theorem add_dependency_always_forces_pending_witness :
    (TaskGraphProject.add_dependency
      { name := "p", dag := { nodes := [0, 1], edges := [] },
        metadata := [(0, { status := some "Done" }),
                     (1, { status := some "Done" })] } 1 0).1 = none ∧
    (TaskGraphProject.add_dependency
      { name := "p", dag := { nodes := [0, 1], edges := [] },
        metadata := [(0, { status := some "Done" }),
                     (1, { status := some "Done" })] } 1 0).2.dag
      = Dag.add_edge { nodes := [0, 1], edges := [] } 0 1 ∧
    alookup (TaskGraphProject.add_dependency
      { name := "p", dag := { nodes := [0, 1], edges := [] },
        metadata := [(0, { status := some "Done" }),
                     (1, { status := some "Done" })] } 1 0).2.metadata 1
      = some { status := some TaskStatus.pending } ∧
    (∀ v, v ≠ 1 →
      alookup (TaskGraphProject.add_dependency
        { name := "p", dag := { nodes := [0, 1], edges := [] },
          metadata := [(0, { status := some "Done" }),
                       (1, { status := some "Done" })] } 1 0).2.metadata v
        = alookup [(0, { status := some "Done" }),
                   (1, { status := some "Done" })] v) :=
  add_dependency_always_forces_pending _ 1 0 { status := some "Done" } (by decide)

/-- C9: `task_snooze(task, until, reason)` modifies only the task's `status`
(to Snoozed), `wake_after` and `snooze_reason`; the DAG, every other task's
metadata, the task's remaining fields (`last_modify` included, visible in the
record update below, which keeps every other field of `m`), the other
projects, and the scheduler's heap and map are unchanged, and no resolution of
any task is triggered (every other task's metadata is an exact frame, and the
task's own status is set unconditionally, not resolver-derived). -/
theorem task_snooze_touches_only_snooze_fields
    (s : SchedulerState) (pid u : Nat) (snooze_until : Int)
    (reason : Option String) (proj : TaskGraphProject)
    (m : TaskGraphTaskMetadataItem)
    (hp : alookup s.projects pid = some proj)
    (hm : alookup proj.metadata u = some m) :
    (s.state_task_snooze pid u snooze_until reason).1 = none ∧
    (s.state_task_snooze pid u snooze_until reason).2.event_heap = s.event_heap ∧
    (s.state_task_snooze pid u snooze_until reason).2.event_map = s.event_map ∧
    (∀ q, q ≠ pid →
      alookup (s.state_task_snooze pid u snooze_until reason).2.projects q
        = alookup s.projects q) ∧
    ∃ proj1,
      alookup (s.state_task_snooze pid u snooze_until reason).2.projects pid
        = some proj1 ∧
      proj1.name = proj.name ∧
      proj1.dag = proj.dag ∧
      alookup proj1.metadata u
        = some { m with status := some TaskStatus.snoozed,
                        wake_after := some snooze_until,
                        snooze_reason := reason } ∧
      (∀ v, v ≠ u → alookup proj1.metadata v = alookup proj.metadata v) := by
  have hsn : proj.task_snooze u snooze_until reason =
      (none, TaskGraphProject.mk proj.name proj.dag
        (aset proj.metadata u
          { m with status := some TaskStatus.snoozed,
                   wake_after := some snooze_until,
                   snooze_reason := reason })) := by
    unfold TaskGraphProject.task_snooze
    simp [hm]
  have hshape : s.state_task_snooze pid u snooze_until reason =
      (none, SchedulerState.mk
        (aset s.projects pid
          (TaskGraphProject.mk proj.name proj.dag
            (aset proj.metadata u
              { m with status := some TaskStatus.snoozed,
                       wake_after := some snooze_until,
                       snooze_reason := reason })))
        s.event_heap s.event_map) := by
    unfold SchedulerState.state_task_snooze
    rw [hp]
    simp only [hsn]
  rw [hshape]
  refine ⟨rfl, rfl, rfl, ?_, ?_⟩
  · intro q hq
    exact alookup_aset_ne _ _ _ _ (fun h => hq h.symm)
  · refine ⟨TaskGraphProject.mk proj.name proj.dag
      (aset proj.metadata u
        { m with status := some TaskStatus.snoozed,
                 wake_after := some snooze_until,
                 snooze_reason := reason }),
      alookup_aset_self _ _ _, rfl, rfl, alookup_aset_self _ _ _, ?_⟩
    intro v hv
    exact alookup_aset_ne _ _ _ _ (fun h => hv h.symm)

/-- Witness for C9 at a concrete input: snoozing task 1 of project 0 until
time 50; the scheduler holds one unrelated event. -/
theorem task_snooze_touches_only_snooze_fields_witness :
    (SchedulerState.state_task_snooze
      { projects := [(0, { name := "p", dag := { nodes := [1], edges := [] },
                           metadata := [(1, { status := some "Active",
                                              last_modify := some 7 })] })],
        event_heap := [(9, 4, "wake_up")],
        event_map := [(4, { project_uuid := 0, task_uuid := 1 })] }
      0 1 50 (some "r")).1 = none ∧
    (SchedulerState.state_task_snooze
      { projects := [(0, { name := "p", dag := { nodes := [1], edges := [] },
                           metadata := [(1, { status := some "Active",
                                              last_modify := some 7 })] })],
        event_heap := [(9, 4, "wake_up")],
        event_map := [(4, { project_uuid := 0, task_uuid := 1 })] }
      0 1 50 (some "r")).2.event_heap = [(9, 4, "wake_up")] ∧
    (SchedulerState.state_task_snooze
      { projects := [(0, { name := "p", dag := { nodes := [1], edges := [] },
                           metadata := [(1, { status := some "Active",
                                              last_modify := some 7 })] })],
        event_heap := [(9, 4, "wake_up")],
        event_map := [(4, { project_uuid := 0, task_uuid := 1 })] }
      0 1 50 (some "r")).2.event_map
      = [(4, { project_uuid := 0, task_uuid := 1 })] ∧
    ∃ proj1,
      alookup (SchedulerState.state_task_snooze
        { projects := [(0, { name := "p", dag := { nodes := [1], edges := [] },
                             metadata := [(1, { status := some "Active",
                                                last_modify := some 7 })] })],
          event_heap := [(9, 4, "wake_up")],
          event_map := [(4, { project_uuid := 0, task_uuid := 1 })] }
        0 1 50 (some "r")).2.projects 0 = some proj1 ∧
      alookup proj1.metadata 1
        = some { status := some TaskStatus.snoozed, wake_after := some 50,
                 snooze_reason := some "r", last_modify := some 7 } := by
  have h := task_snooze_touches_only_snooze_fields
    { projects := [(0, { name := "p", dag := { nodes := [1], edges := [] },
                         metadata := [(1, { status := some "Active",
                                            last_modify := some 7 })] })],
      event_heap := [(9, 4, "wake_up")],
      event_map := [(4, { project_uuid := 0, task_uuid := 1 })] }
    0 1 50 (some "r")
    { name := "p", dag := { nodes := [1], edges := [] },
      metadata := [(1, { status := some "Active", last_modify := some 7 })] }
    { status := some "Active", last_modify := some 7 }
    (by decide) (by decide)
  refine ⟨h.1, h.2.1, h.2.2.1, ?_⟩
  obtain ⟨proj1, hl, _, _, hu, _⟩ := h.2.2.2.2
  exact ⟨proj1, hl, hu⟩

/-- C10: on a task id with no metadata entry, `task_done`, `task_snooze` and
`task_open_issue` each fail with a raw `KeyError` (the failed dict lookup, not
the documented `NotFound` taxonomy) raised by their very first statement, so
the project state at the moment of the raise is exactly the input project
(atomicity on error). -/
theorem missing_task_raw_keyerror_atomic
    (p : TaskGraphProject) (now : Int) (u : Nat) (snooze_until : Int)
    (reason : Option String) (issue_uuid : Nat) (title : String)
    (description : Option String)
    (h : alookup p.metadata u = none) :
    p.task_done now u = (some .keyError, p) ∧
    p.task_snooze u snooze_until reason = (some .keyError, p) ∧
    p.task_open_issue now u issue_uuid title description
      = (some .keyError, p) := by
  refine ⟨?_, ?_, ?_⟩
  · unfold TaskGraphProject.task_done
    simp [h]
  · unfold TaskGraphProject.task_snooze
    simp [h]
  · unfold TaskGraphProject.task_open_issue
    simp [h]

/-- Witness for C10 at a concrete input: task 9 has no metadata entry in a
one-task project. -/
theorem missing_task_raw_keyerror_atomic_witness :
    TaskGraphProject.task_done
      { name := "p", dag := { nodes := [0], edges := [] },
        metadata := [(0, { status := some "Active" })] } 3 9
      = (some .keyError,
         { name := "p", dag := { nodes := [0], edges := [] },
           metadata := [(0, { status := some "Active" })] }) ∧
    TaskGraphProject.task_snooze
      { name := "p", dag := { nodes := [0], edges := [] },
        metadata := [(0, { status := some "Active" })] } 9 10 none
      = (some .keyError,
         { name := "p", dag := { nodes := [0], edges := [] },
           metadata := [(0, { status := some "Active" })] }) ∧
    TaskGraphProject.task_open_issue
      { name := "p", dag := { nodes := [0], edges := [] },
        metadata := [(0, { status := some "Active" })] } 3 9 1 "t" none
      = (some .keyError,
         { name := "p", dag := { nodes := [0], edges := [] },
           metadata := [(0, { status := some "Active" })] }) :=
  missing_task_raw_keyerror_atomic _ 3 9 10 none 1 "t" none (by decide)

/-- C2: for every existing parent task, `add_sub_task(parent)` creates a new
task whose status ends up Active and forces the parent's status to Pending;
and (Scenario A) adding sub-task A (id 1) under the root (id 0) and sub-task
B (id 2) under A leaves B Active and A Pending, after which `task_done(B)`
makes A Active. -/
theorem add_sub_task_child_active_parent_pending
    (p : TaskGraphProject) (now : Int) (parent fresh : Nat)
    (meta : Option TaskGraphTaskMetadataItem) (mp : TaskGraphTaskMetadataItem)
    (hp : alookup p.metadata parent = some mp)
    (hne : fresh ≠ parent) :
    ((p.add_sub_task now parent fresh meta).1 = none ∧
     (alookup (p.add_sub_task now parent fresh meta).2.metadata fresh).map
        (fun m => m.status) = some (some TaskStatus.active) ∧
     (alookup (p.add_sub_task now parent fresh meta).2.metadata parent).map
        (fun m => m.status) = some (some TaskStatus.pending)) ∧
    (let P0 : TaskGraphProject :=
       { name := "P", dag := { nodes := [0], edges := [] },
         metadata := [(0, { name := some "Finish", status := some "Active" })] }
     let r1 := P0.add_sub_task 100 0 1 none
     let r2 := r1.2.add_sub_task 101 1 2 none
     let r3 := r2.2.task_done 102 2
     r1.1 = none ∧ r2.1 = none ∧
     (alookup r2.2.metadata 2).map (fun m => m.status)
       = some (some TaskStatus.active) ∧
     (alookup r2.2.metadata 1).map (fun m => m.status)
       = some (some TaskStatus.pending) ∧
     r3.1 = none ∧
     (alookup r3.2.metadata 1).map (fun m => m.status)
       = some (some TaskStatus.active)) := by
  refine ⟨?_, by decide⟩
  have hlp : alookup (aset p.metadata fresh (meta.getD {})) parent = some mp := by
    rw [alookup_aset_ne _ _ _ _ hne]
    exact hp
  have hlf : alookup
      (aset (aset p.metadata fresh (meta.getD {})) parent
        { mp with status := some TaskStatus.pending }) fresh
      = some (meta.getD {}) := by
    rw [alookup_aset_ne _ _ _ _ (fun h => hne h.symm)]
    exact alookup_aset_self _ _ _
  have key : p.add_sub_task now parent fresh meta =
      (none, TaskGraphProject.mk p.name
        (((p.dag.add_node fresh).add_edge fresh parent))
        (aset
          (aset (aset p.metadata fresh (meta.getD {})) parent
            { mp with status := some TaskStatus.pending })
          fresh
          { (meta.getD {}) with status := some TaskStatus.active,
                                last_modify := some now })) := by
    unfold TaskGraphProject.add_sub_task TaskGraphProject.add_dependency
    simp only [hlp, hlf]
  rw [key]
  refine ⟨rfl, ?_, ?_⟩
  · rw [alookup_aset_self]
    rfl
  · rw [alookup_aset_ne _ _ _ _ hne, alookup_aset_self]
    rfl

/-- Witness for C2 at a concrete input: adding a sub-task (fresh id 5) under
the Done task 0. -/
theorem add_sub_task_child_active_parent_pending_witness :
    ((TaskGraphProject.add_sub_task
        { name := "p", dag := { nodes := [0], edges := [] },
          metadata := [(0, { status := some "Done" })] } 9 0 5 none).1 = none ∧
     (alookup (TaskGraphProject.add_sub_task
        { name := "p", dag := { nodes := [0], edges := [] },
          metadata := [(0, { status := some "Done" })] } 9 0 5 none).2.metadata 5).map
        (fun m => m.status) = some (some TaskStatus.active) ∧
     (alookup (TaskGraphProject.add_sub_task
        { name := "p", dag := { nodes := [0], edges := [] },
          metadata := [(0, { status := some "Done" })] } 9 0 5 none).2.metadata 0).map
        (fun m => m.status) = some (some TaskStatus.pending)) ∧
    (let P0 : TaskGraphProject :=
       { name := "P", dag := { nodes := [0], edges := [] },
         metadata := [(0, { name := some "Finish", status := some "Active" })] }
     let r1 := P0.add_sub_task 100 0 1 none
     let r2 := r1.2.add_sub_task 101 1 2 none
     let r3 := r2.2.task_done 102 2
     r1.1 = none ∧ r2.1 = none ∧
     (alookup r2.2.metadata 2).map (fun m => m.status)
       = some (some TaskStatus.active) ∧
     (alookup r2.2.metadata 1).map (fun m => m.status)
       = some (some TaskStatus.pending) ∧
     r3.1 = none ∧
     (alookup r3.2.metadata 1).map (fun m => m.status)
       = some (some TaskStatus.active)) :=
  add_sub_task_child_active_parent_pending _ 9 0 5 none
    { status := some "Done" } (by decide) (by decide)

/-- C7: `remove_task(task)` captures the task's direct successors before
removal, deletes the DAG node and the metadata entry, and then resolves every
captured successor; on a task whose node does not exist it fails with the
graph library's node-not-found error (the specification's `NotFound`) and
changes nothing; and (Scenario C) removing a task with two successors S1, S2
that each depend only on the removed task leaves both S1 and S2 Active. -/
theorem remove_task_resolves_captured_successors
    (p : TaskGraphProject) (now : Int) (u : Nat)
    (m : TaskGraphTaskMetadataItem)
    (hmem : u ∈ p.dag.nodes) (hm : alookup p.metadata u = some m) :
    (p.remove_task now u =
      TaskGraphProject.resolve_list
        (TaskGraphProject.mk p.name (p.dag.remove_node u) (aerase p.metadata u))
        now (p.dag.successors u)) ∧
    (∀ (q : TaskGraphProject) (v : Nat), v ∉ q.dag.nodes →
      q.remove_task now v = (some PyErr.networkxError, q)) ∧
    ((TaskGraphProject.remove_task
        { name := "P", dag := { nodes := [0, 1, 2], edges := [(0, 1), (0, 2)] },
          metadata := [(0, { status := some "Active" }),
                       (1, { status := some "Pending" }),
                       (2, { status := some "Pending" })] } 50 0).1 = none ∧
     (alookup (TaskGraphProject.remove_task
        { name := "P", dag := { nodes := [0, 1, 2], edges := [(0, 1), (0, 2)] },
          metadata := [(0, { status := some "Active" }),
                       (1, { status := some "Pending" }),
                       (2, { status := some "Pending" })] } 50 0).2.metadata 1).map
        (fun x => x.status) = some (some TaskStatus.active) ∧
     (alookup (TaskGraphProject.remove_task
        { name := "P", dag := { nodes := [0, 1, 2], edges := [(0, 1), (0, 2)] },
          metadata := [(0, { status := some "Active" }),
                       (1, { status := some "Pending" }),
                       (2, { status := some "Pending" })] } 50 0).2.metadata 2).map
        (fun x => x.status) = some (some TaskStatus.active)) := by
  refine ⟨?_, ?_, by decide⟩
  · unfold TaskGraphProject.remove_task
    simp [hmem, hm]
  · intro q v hv
    unfold TaskGraphProject.remove_task
    simp [hv]

/-- Witness for C7 at the Scenario C input itself: removing task 0 whose
successors 1 and 2 each depend only on it. -/
theorem remove_task_resolves_captured_successors_witness :
    TaskGraphProject.remove_task
      { name := "P", dag := { nodes := [0, 1, 2], edges := [(0, 1), (0, 2)] },
        metadata := [(0, { status := some "Active" }),
                     (1, { status := some "Pending" }),
                     (2, { status := some "Pending" })] } 50 0
      = TaskGraphProject.resolve_list
          (TaskGraphProject.mk "P"
            (Dag.remove_node { nodes := [0, 1, 2], edges := [(0, 1), (0, 2)] } 0)
            (aerase [(0, { status := some "Active" }),
                     (1, { status := some "Pending" }),
                     (2, { status := some "Pending" })] 0))
          50
          (Dag.successors { nodes := [0, 1, 2], edges := [(0, 1), (0, 2)] } 0) ∧
    TaskGraphProject.remove_task
      { name := "q", dag := { nodes := [3], edges := [] },
        metadata := [(3, { status := some "Active" })] } 50 7
      = (some PyErr.networkxError,
         { name := "q", dag := { nodes := [3], edges := [] },
           metadata := [(3, { status := some "Active" })] }) := by
  have h := remove_task_resolves_captured_successors
    { name := "P", dag := { nodes := [0, 1, 2], edges := [(0, 1), (0, 2)] },
      metadata := [(0, { status := some "Active" }),
                   (1, { status := some "Pending" }),
                   (2, { status := some "Pending" })] } 50 0
    { status := some "Active" } (by decide) (by decide)
  exact ⟨h.1, h.2.1 _ 7 (by decide)⟩

theorem set_task_status_lookup_self (p : TaskGraphProject) (v : Nat)
    (st : String) (m : TaskGraphTaskMetadataItem)
    (hm : alookup p.metadata v = some m) :
    (p.set_task_status v st).metadata = aset p.metadata v { m with status := some st } := by
  unfold TaskGraphProject.set_task_status
  rw [hm]

theorem set_task_status_none (p : TaskGraphProject) (v : Nat) (st : String)
    (hm : alookup p.metadata v = none) : p.set_task_status v st = p := by
  unfold TaskGraphProject.set_task_status
  rw [hm]

theorem set_task_status_name (p : TaskGraphProject) (v : Nat) (st : String) :
    (p.set_task_status v st).name = p.name := by
  unfold TaskGraphProject.set_task_status
  cases alookup p.metadata v <;> rfl

theorem set_task_status_dag (p : TaskGraphProject) (v : Nat) (st : String) :
    (p.set_task_status v st).dag = p.dag := by
  unfold TaskGraphProject.set_task_status
  cases alookup p.metadata v <;> rfl

theorem set_task_status_lookup_ne (p : TaskGraphProject) (v w : Nat)
    (st : String) (hw : w ≠ v) :
    alookup (p.set_task_status v st).metadata w = alookup p.metadata w := by
  unfold TaskGraphProject.set_task_status
  cases hm : alookup p.metadata v with
  | none => rfl
  | some m => exact alookup_aset_ne _ _ _ _ (fun h => hw h.symm)

/-- `resolve_dependency` either leaves the project unchanged (early return or
raise) or succeeds and rewrites exactly the target task's status field. -/
theorem resolve_dependency_cases (p : TaskGraphProject) (now : Int) (v : Nat) :
    (p.resolve_dependency now v).2 = p ∨
    ∃ st, p.resolve_dependency now v = (none, p.set_task_status v st) := by
  unfold TaskGraphProject.resolve_dependency
  cases hm : alookup p.metadata v with
  | none => exact Or.inl rfl
  | some m =>
      by_cases hd : m.status = some TaskStatus.done
      · left
        simp [hd]
      · simp only [hd, if_false]
        cases hcs : p.check_snoozed now v with
        | error e => exact Or.inl rfl
        | ok b =>
            cases b with
            | true => exact Or.inl rfl
            | false =>
                cases har : p.all_dependency_resolved (p.dag.predecessors v) with
                | error e => exact Or.inl rfl
                | ok b2 => exact Or.inr ⟨_, rfl⟩

theorem resolve_dependency_done_noop (p : TaskGraphProject) (now : Int)
    (u : Nat) (m : TaskGraphTaskMetadataItem)
    (hm : alookup p.metadata u = some m)
    (hd : m.status = some TaskStatus.done) :
    p.resolve_dependency now u = (none, p) := by
  unfold TaskGraphProject.resolve_dependency
  rw [hm]
  simp [hd]

/-- Single-step frame for `resolve_dependency`: name and DAG are preserved,
other tasks are untouched, and any task changes at most its status field. -/
theorem resolve_dependency_frame (p : TaskGraphProject) (now : Int) (v : Nat) :
    (p.resolve_dependency now v).2.name = p.name ∧
    (p.resolve_dependency now v).2.dag = p.dag ∧
    (∀ w, w ≠ v →
      alookup (p.resolve_dependency now v).2.metadata w = alookup p.metadata w) ∧
    (∀ w, alookup (p.resolve_dependency now v).2.metadata w = alookup p.metadata w ∨
      ∃ mw st, alookup p.metadata w = some mw ∧
        alookup (p.resolve_dependency now v).2.metadata w
          = some { mw with status := some st }) := by
  rcases resolve_dependency_cases p now v with h | ⟨st, h⟩
  · rw [h]
    exact ⟨rfl, rfl, fun w _ => rfl, fun w => Or.inl rfl⟩
  · rw [h]
    refine ⟨set_task_status_name p v st, set_task_status_dag p v st, ?_, ?_⟩
    · intro w hw
      exact set_task_status_lookup_ne p v w st hw
    · intro w
      by_cases hw : w = v
      · subst hw
        cases hm : alookup p.metadata w with
        | none =>
            left
            rw [set_task_status_none p w st hm, hm]
        | some m =>
            right
            refine ⟨m, st, rfl, ?_⟩
            rw [set_task_status_lookup_self p w st m hm]
            exact alookup_aset_self _ _ _
      · left
        exact set_task_status_lookup_ne p v w st hw

theorem resolve_dependency_preserves_done_entry (p : TaskGraphProject)
    (now : Int) (v u : Nat) (m : TaskGraphTaskMetadataItem)
    (hm : alookup p.metadata u = some m)
    (hd : m.status = some TaskStatus.done) :
    alookup (p.resolve_dependency now v).2.metadata u = some m := by
  by_cases hv : v = u
  · subst hv
    rw [resolve_dependency_done_noop p now v m hm hd]
    exact hm
  · rw [(resolve_dependency_frame p now v).2.2.1 u (fun h => hv h.symm)]
    exact hm

theorem meta_status_overwrite (mw : TaskGraphTaskMetadataItem)
    (st1 st2 : String) :
    ({ { mw with status := some st1 } with status := some st2 }
      : TaskGraphTaskMetadataItem) = { mw with status := some st2 } := rfl

/-- Frame for a resolution sweep: name and DAG preserved, tasks outside the
list untouched, and every task changes at most its status field. -/
theorem resolve_list_frame (now : Int) (l : List Nat) (p : TaskGraphProject) :
    (TaskGraphProject.resolve_list p now l).2.name = p.name ∧
    (TaskGraphProject.resolve_list p now l).2.dag = p.dag ∧
    (∀ w, w ∉ l →
      alookup (TaskGraphProject.resolve_list p now l).2.metadata w
        = alookup p.metadata w) ∧
    (∀ w, alookup (TaskGraphProject.resolve_list p now l).2.metadata w
        = alookup p.metadata w ∨
      ∃ mw st, alookup p.metadata w = some mw ∧
        alookup (TaskGraphProject.resolve_list p now l).2.metadata w
          = some { mw with status := some st }) := by
  induction l generalizing p with
  | nil => exact ⟨rfl, rfl, fun w _ => rfl, fun w => Or.inl rfl⟩
  | cons n rest ih =>
      have hstep := resolve_dependency_frame p now n
      unfold TaskGraphProject.resolve_list
      cases hr : p.resolve_dependency now n with
      | mk e p1 =>
          rw [hr] at hstep
          cases e with
          | some e2 =>
              refine ⟨hstep.1, hstep.2.1, ?_, hstep.2.2.2⟩
              intro w hw
              refine hstep.2.2.1 w ?_
              intro h
              rw [h] at hw
              exact hw (List.mem_cons_self n rest)
          | none =>
              have hih := ih p1
              refine ⟨hih.1.trans hstep.1, hih.2.1.trans hstep.2.1, ?_, ?_⟩
              · intro w hw
                have hw1 : w ≠ n := fun h => hw (h ▸ List.mem_cons_self n rest)
                have hw2 : w ∉ rest := fun h => hw (List.mem_cons_of_mem n h)
                rw [hih.2.2.1 w hw2]
                exact hstep.2.2.1 w hw1
              · intro w
                rcases hih.2.2.2 w with h2 | ⟨mw2, st2, hmw2, hq2⟩
                · rcases hstep.2.2.2 w with h1 | ⟨mw1, st1, hmw1, hp1⟩
                  · exact Or.inl (h2.trans h1)
                  · exact Or.inr ⟨mw1, st1, hmw1, h2.trans hp1⟩
                · rcases hstep.2.2.2 w with h1 | ⟨mw1, st1, hmw1, hp1⟩
                  · right
                    refine ⟨mw2, st2, ?_, hq2⟩
                    rw [← h1]
                    exact hmw2
                  · right
                    refine ⟨mw1, st2, hmw1, ?_⟩
                    rw [hp1] at hmw2
                    have hmm : mw2 = { mw1 with status := some st1 } :=
                      Option.some.inj hmw2.symm
                    rw [hq2, hmm]

theorem resolve_list_preserves_done_entry (now : Int) (l : List Nat)
    (p : TaskGraphProject) (u : Nat) (m : TaskGraphTaskMetadataItem)
    (hm : alookup p.metadata u = some m)
    (hd : m.status = some TaskStatus.done) :
    alookup (TaskGraphProject.resolve_list p now l).2.metadata u = some m := by
  induction l generalizing p with
  | nil => exact hm
  | cons n rest ih =>
      have hstep := resolve_dependency_preserves_done_entry p now n u m hm hd
      unfold TaskGraphProject.resolve_list
      cases hr : p.resolve_dependency now n with
      | mk e p1 =>
          rw [hr] at hstep
          cases e with
          | some e2 => exact hstep
          | none => exact ih p1 hstep

/-- Counterexample to C8 as stated: in a one-task project whose task 0 is
already Done with `time_done = 10`, calling `task_done` again at time 11
changes the observable state — `time_done` is overwritten with the current
time. -/
theorem task_done_overwrites_time_done_counterexample :
    (alookup ([(0, { status := some "Done", time_done := some 10 })]
        : List (Nat × TaskGraphTaskMetadataItem)) 0).map (fun m => m.status)
      = some (some TaskStatus.done) ∧
    (TaskGraphProject.task_done
      { name := "p", dag := { nodes := [0], edges := [] },
        metadata := [(0, { status := some "Done", time_done := some 10 })] }
      11 0).1 = none ∧
    (TaskGraphProject.task_done
      { name := "p", dag := { nodes := [0], edges := [] },
        metadata := [(0, { status := some "Done", time_done := some 10 })] }
      11 0).2
      ≠ { name := "p", dag := { nodes := [0], edges := [] },
          metadata := [(0, { status := some "Done", time_done := some 10 })] } ∧
    (alookup (TaskGraphProject.task_done
      { name := "p", dag := { nodes := [0], edges := [] },
        metadata := [(0, { status := some "Done", time_done := some 10 })] }
      11 0).2.metadata 0).map (fun m => m.time_done) = some (some 11) := by
  refine ⟨by decide, by decide, ?_, by decide⟩
  decide

/-- C8, amended: `task_done` on an already-Done task keeps the DAG, keeps the
task's entry except that `time_done` is overwritten with the current time
(status stays Done), leaves every task other than the direct successors
unchanged, and changes direct successors at most in their status field (they
are re-resolved).  The state is not unchanged in general: `time_done` is
re-stamped (see the counterexample). -/
theorem task_done_on_done_task_frame
    (p : TaskGraphProject) (now : Int) (u : Nat)
    (m : TaskGraphTaskMetadataItem)
    (hm : alookup p.metadata u = some m)
    (_hd : m.status = some TaskStatus.done)
    (hok : (p.task_done now u).1 = none) :
    (p.task_done now u).2.dag = p.dag ∧
    alookup (p.task_done now u).2.metadata u
      = some { m with status := some TaskStatus.done, time_done := some now } ∧
    (∀ v, v ≠ u → v ∉ p.dag.successors u →
      alookup (p.task_done now u).2.metadata v = alookup p.metadata v) ∧
    (∀ v, v ≠ u →
      alookup (p.task_done now u).2.metadata v = alookup p.metadata v ∨
      ∃ mv st, alookup p.metadata v = some mv ∧
        alookup (p.task_done now u).2.metadata v
          = some { mv with status := some st }) := by
  have hmem : u ∈ p.dag.nodes := by
    by_contra hmem
    unfold TaskGraphProject.task_done at hok
    rw [hm] at hok
    simp [hmem] at hok
  have key : p.task_done now u =
      TaskGraphProject.resolve_list
        (TaskGraphProject.mk p.name p.dag
          (aset p.metadata u
            { m with status := some TaskStatus.done, time_done := some now }))
        now (p.dag.successors u) := by
    unfold TaskGraphProject.task_done
    rw [hm]
    simp [hmem]
  have hframe := resolve_list_frame now (p.dag.successors u)
    (TaskGraphProject.mk p.name p.dag
      (aset p.metadata u
        { m with status := some TaskStatus.done, time_done := some now }))
  rw [key]
  refine ⟨hframe.2.1, ?_, ?_, ?_⟩
  · refine resolve_list_preserves_done_entry now _ _ u
      { m with status := some TaskStatus.done, time_done := some now } ?_ rfl
    exact alookup_aset_self _ _ _
  · intro v hvu hvs
    rw [hframe.2.2.1 v hvs]
    exact alookup_aset_ne _ _ _ _ (fun h => hvu h.symm)
  · intro v hvu
    have hpv : alookup
        (aset p.metadata u
          { m with status := some TaskStatus.done, time_done := some now }) v
        = alookup p.metadata v :=
      alookup_aset_ne _ _ _ _ (fun h => hvu h.symm)
    rcases hframe.2.2.2 v with h1 | ⟨mv, st, hmv, hqv⟩
    · left
      rw [h1]
      exact hpv
    · right
      refine ⟨mv, st, ?_, hqv⟩
      rw [← hpv]
      exact hmv

/-- Witness for the amended C8 at a concrete input: task 0 is Done with an
old `time_done`, task 1 is its direct successor. -/
theorem task_done_on_done_task_frame_witness :
    (TaskGraphProject.task_done
      { name := "p", dag := { nodes := [0, 1], edges := [(0, 1)] },
        metadata := [(0, { status := some "Done", time_done := some 10 }),
                     (1, { status := some "Pending" })] } 11 0).2.dag
      = { nodes := [0, 1], edges := [(0, 1)] } ∧
    alookup (TaskGraphProject.task_done
      { name := "p", dag := { nodes := [0, 1], edges := [(0, 1)] },
        metadata := [(0, { status := some "Done", time_done := some 10 }),
                     (1, { status := some "Pending" })] } 11 0).2.metadata 0
      = some { status := some TaskStatus.done, time_done := some 11 } := by
  have h := task_done_on_done_task_frame
    { name := "p", dag := { nodes := [0, 1], edges := [(0, 1)] },
      metadata := [(0, { status := some "Done", time_done := some 10 }),
                   (1, { status := some "Pending" })] } 11 0
    { status := some "Done", time_done := some 10 }
    (by decide) (by decide) (by decide)
  exact ⟨h.1, h.2.1⟩

theorem entryLt_eq_true_iff (a b : HeapEntry) :
    entryLt a b = true ↔
      a.1 < b.1 ∨ (a.1 = b.1 ∧
        (a.2.1 < b.2.1 ∨ (a.2.1 = b.2.1 ∧ a.2.2 < b.2.2))) := by
  unfold entryLt
  simp [Bool.or_eq_true, Bool.and_eq_true]

theorem entryLt_irrefl (a : HeapEntry) : entryLt a a = false := by
  rw [Bool.eq_false_iff]
  intro h
  rw [entryLt_eq_true_iff] at h
  rcases h with h1 | ⟨_, h3 | ⟨_, h5⟩⟩
  · omega
  · omega
  · exact lt_irrefl _ h5

theorem entryLt_asymm (a b : HeapEntry) (h : entryLt a b = true) :
    entryLt b a = false := by
  rw [Bool.eq_false_iff]
  intro hba
  rw [entryLt_eq_true_iff] at h hba
  rcases h with h1 | ⟨h2, h3 | ⟨h4, h5⟩⟩ <;>
    rcases hba with g1 | ⟨g2, g3 | ⟨g4, g5⟩⟩ <;>
      first
        | omega
        | exact absurd g5 (lt_asymm h5)

theorem entryLt_trans (a b c : HeapEntry) (hab : entryLt a b = true)
    (hbc : entryLt b c = true) : entryLt a c = true := by
  rw [entryLt_eq_true_iff] at hab hbc ⊢
  rcases hab with h1 | ⟨h2, h3 | ⟨h4, h5⟩⟩ <;>
    rcases hbc with g1 | ⟨g2, g3 | ⟨g4, g5⟩⟩ <;>
      first
        | (left; omega)
        | (right; exact ⟨by omega, Or.inl (by omega)⟩)
        | (right; exact ⟨by omega, Or.inr ⟨by omega, lt_trans h5 g5⟩⟩)

theorem mem_heappush (l : List HeapEntry) (e a : HeapEntry) :
    a ∈ heappush l e ↔ a ∈ l ∨ a = e := by
  induction l with
  | nil => simp [heappush]
  | cons x xs ih =>
      unfold heappush
      by_cases hx : entryLt e x
      · simp [hx]
        tauto
      · simp [hx, ih]
        tauto

/-- `heappush` keeps the queue sorted under the Python tuple order. -/
theorem heappush_sorted (l : List HeapEntry) (e : HeapEntry)
    (h : l.Pairwise (fun a b => entryLt b a = false)) :
    (heappush l e).Pairwise (fun a b => entryLt b a = false) := by
  induction l with
  | nil => simp [heappush]
  | cons x xs ih =>
      rw [List.pairwise_cons] at h
      by_cases he : entryLt e x
      · unfold heappush
        simp only [he, if_true]
        refine List.Pairwise.cons ?_ (List.Pairwise.cons h.1 h.2)
        intro b hb
        rcases List.mem_cons.mp hb with rfl | hb2
        · exact entryLt_asymm e b he
        · rw [Bool.eq_false_iff]
          intro hbe
          have : entryLt b x = true := entryLt_trans b e x hbe he
          rw [h.1 b hb2] at this
          exact Bool.false_ne_true this
      · unfold heappush
        simp only [he, if_false]
        refine List.Pairwise.cons ?_ (ih h.2)
        intro b hb
        rcases (mem_heappush xs e b).mp hb with hb2 | rfl
        · exact h.1 b hb2
        · exact Bool.not_eq_true _ ▸ he

/-- `__process_event` touches only the projects: heap and map unchanged. -/
theorem process_event_frame (s : SchedulerState) (now : Int) (event_uuid : Nat)
    (event_type : String) :
    (s.process_event now event_uuid event_type).2.event_heap = s.event_heap ∧
    (s.process_event now event_uuid event_type).2.event_map = s.event_map := by
  unfold SchedulerState.process_event
  repeat' split
  all_goals exact ⟨rfl, rfl⟩

/-- Counterexample to C4 as stated: with a single event of timestamp 5 in the
queue and current time exactly 5, the event's timestamp is ≤ the current time,
yet the tick step pops and processes nothing — the code fires only on
`now > timestamp` (strict). -/
theorem periodic_check_step_boundary_counterexample :
    ((5 : Int) ≤ 5) ∧
    (({ projects := [], event_heap := [(5, 1, "wake_up")],
        event_map := [(1, { project_uuid := 0, task_uuid := 0 })] }
        : SchedulerState).periodic_check_step 5
      = (none,
         { projects := [], event_heap := [(5, 1, "wake_up")],
           event_map := [(1, { project_uuid := 0, task_uuid := 0 })] })) := by
  exact ⟨by decide, by decide⟩

/-- C4, amended: in each scheduler tick step on a sorted queue, the head event
is the minimum under the `(timestamp, event_id)` order (ties broken
deterministically by event id), it is popped and processed if and only if its
timestamp is strictly less than the current time (`time.time() > t_event`),
and when it is not strictly due the step changes nothing — so an event is
never fired at or before its timestamp. -/
theorem periodic_check_step_fires_iff_strictly_due
    (s : SchedulerState) (now : Int) (e : HeapEntry) (rest : List HeapEntry)
    (hheap : s.event_heap = e :: rest)
    (hsorted : s.heap_sorted) :
    (∀ e2 ∈ s.event_heap, e.1 ≤ e2.1 ∧ (e.1 = e2.1 → e.2.1 ≤ e2.2.1)) ∧
    (¬ e.1 < now → s.periodic_check_step now = (none, s)) ∧
    (∀ s1, e.1 < now → s.process_event now e.2.1 e.2.2 = (none, s1) →
      s.periodic_check_step now
        = (none, { s1 with event_heap := rest,
                           event_map := aerase s1.event_map e.2.1 })) := by
  unfold SchedulerState.heap_sorted at hsorted
  rw [hheap] at hsorted
  rw [List.pairwise_cons] at hsorted
  refine ⟨?_, ?_, ?_⟩
  · intro e2 he2
    rw [hheap] at he2
    have hfalse : entryLt e2 e = false := by
      rcases List.mem_cons.mp he2 with rfl | h2
      · exact entryLt_irrefl e2
      · exact hsorted.1 e2 h2
    rw [Bool.eq_false_iff] at hfalse
    constructor
    · by_contra hlt
      exact hfalse ((entryLt_eq_true_iff e2 e).mpr (Or.inl (by omega)))
    · intro heq
      by_contra hlt
      exact hfalse ((entryLt_eq_true_iff e2 e).mpr
        (Or.inr ⟨heq.symm, Or.inl (by omega)⟩))
  · intro hnot
    unfold SchedulerState.periodic_check_step
    rw [hheap]
    have : ¬ now > e.1 := by omega
    simp [this]
  · intro s1 hlt hproc
    have hfr := process_event_frame s now e.2.1 e.2.2
    rw [hproc] at hfr
    unfold SchedulerState.periodic_check_step
    rw [hheap]
    have hgt : now > e.1 := hlt
    simp only [hgt, if_true, hproc]
    rw [hfr.1, hheap]
    rfl

/-- Witness for the amended C4 at a concrete input: one due event (timestamp
3, current time 4) whose project no longer exists; it is popped and the map
entry is erased. -/
theorem periodic_check_step_fires_iff_strictly_due_witness :
    (∀ e2 ∈ ({ projects := [], event_heap := [(3, 7, "wake_up")],
               event_map := [(7, { project_uuid := 5, task_uuid := 9 })] }
        : SchedulerState).event_heap,
      (3 : Int) ≤ e2.1 ∧ ((3 : Int) = e2.1 → 7 ≤ e2.2.1)) ∧
    (({ projects := [], event_heap := [(3, 7, "wake_up")],
        event_map := [(7, { project_uuid := 5, task_uuid := 9 })] }
        : SchedulerState).periodic_check_step 4
      = (none, { projects := [], event_heap := [],
                 event_map := aerase [(7, { project_uuid := 5, task_uuid := 9 })] 7 })) := by
  have h := periodic_check_step_fires_iff_strictly_due
    { projects := [], event_heap := [(3, 7, "wake_up")],
      event_map := [(7, { project_uuid := 5, task_uuid := 9 })] }
    4 (3, 7, "wake_up") [] rfl
    (by unfold SchedulerState.heap_sorted; decide)
  refine ⟨h.1, ?_⟩
  exact h.2.2
    { projects := [], event_heap := [(3, 7, "wake_up")],
      event_map := [(7, { project_uuid := 5, task_uuid := 9 })] }
    (by decide) (by decide)

theorem alookup_eq_none (l : List (Nat × EventTaskWakeUp)) (k : Nat) :
    alookup l k = none ↔ k ∉ l.map (fun e => e.1) := by
  induction l with
  | nil => simp [alookup]
  | cons x xs ih =>
      by_cases hx : x.1 = k
      · simp [alookup, hx]
      · simp only [alookup, hx, if_false, List.map_cons, List.mem_cons, ih]
        constructor
        · intro h hk
          rcases hk with hk | hk
          · exact hx hk.symm
          · exact h hk
        · intro h hk
          exact h (Or.inr hk)

theorem aset_map_fst_of_fresh (l : List (Nat × EventTaskWakeUp)) (k : Nat)
    (v : EventTaskWakeUp) (h : alookup l k = none) :
    (aset l k v).map (fun e => e.1) = l.map (fun e => e.1) ++ [k] := by
  induction l with
  | nil => simp [aset]
  | cons x xs ih =>
      simp only [alookup] at h
      by_cases hx : x.1 = k
      · rw [if_pos hx] at h
        exact absurd h (by simp)
      · rw [if_neg hx] at h
        simp [aset, hx, ih h]

theorem aerase_map_fst (l : List (Nat × EventTaskWakeUp)) (k : Nat) :
    (aerase l k).map (fun e => e.1) = (l.map (fun e => e.1)).erase k := by
  induction l with
  | nil => simp [aerase]
  | cons x xs ih =>
      by_cases hx : x.1 = k
      · simp [aerase, hx, List.erase_cons_head]
      · rw [List.map_cons, List.erase_cons_tail]
        · simp [aerase, hx, ih]
        · simp [hx]

theorem heappush_perm (l : List HeapEntry) (e : HeapEntry) :
    (heappush l e).Perm (e :: l) := by
  induction l with
  | nil => exact List.Perm.refl _
  | cons x xs ih =>
      unfold heappush
      by_cases hx : entryLt e x
      · simp only [hx, if_true]
        exact List.Perm.refl _
      · simp only [hx, if_false]
        exact (List.Perm.cons x ih).trans (List.Perm.swap e x xs)

/-- `schedule` with a fresh `uuid4` keeps the heap and the side table in
sync: ids stay unique and the two id sets stay equal. -/
theorem schedule_preserves_in_sync (s : SchedulerState) (t : Int) (id : Nat)
    (ty : String) (ev : EventTaskWakeUp)
    (hs : s.in_sync) (hfresh : alookup s.event_map id = none) :
    (s.schedule t id ty ev).in_sync := by
  obtain ⟨hnd, hperm⟩ := hs
  have hid_not_map : id ∉ s.map_ids := (alookup_eq_none _ _).mp hfresh
  have hid_not_heap : id ∉ s.heap_ids := fun h => hid_not_map (hperm.mem_iff.mp h)
  have h1 : (s.schedule t id ty ev).heap_ids.Perm (id :: s.heap_ids) := by
    unfold SchedulerState.heap_ids SchedulerState.schedule
    exact (heappush_perm s.event_heap (t, id, ty)).map (fun e => e.2.1)
  have h2 : (s.schedule t id ty ev).map_ids = s.map_ids ++ [id] :=
    aset_map_fst_of_fresh s.event_map id ev hfresh
  constructor
  · rw [h1.nodup_iff]
    exact List.nodup_cons.mpr ⟨hid_not_heap, hnd⟩
  · rw [h2]
    exact h1.trans ((hperm.cons id).trans
      (List.perm_append_singleton id s.map_ids).symm)

/-- Every tick step keeps the heap and the side table in sync: a fired event
is removed from both, and otherwise neither changes. -/
theorem periodic_check_step_preserves_in_sync (s : SchedulerState) (now : Int)
    (hs : s.in_sync) : (s.periodic_check_step now).2.in_sync := by
  unfold SchedulerState.periodic_check_step
  cases hh : s.event_heap with
  | nil => exact hs
  | cons first rest =>
      by_cases hlt : now > first.1
      · simp only [hlt, if_true]
        cases hproc : s.process_event now first.2.1 first.2.2 with
        | mk e s1 =>
            have hfr := process_event_frame s now first.2.1 first.2.2
            rw [hproc] at hfr
            have hfr1 : s1.event_heap = s.event_heap := hfr.1
            have hfr2 : s1.event_map = s.event_map := hfr.2
            obtain ⟨hnd, hperm⟩ := hs
            have hhid : s.heap_ids = first.2.1 :: rest.map (fun e => e.2.1) := by
              unfold SchedulerState.heap_ids
              rw [hh]
              rfl
            cases e with
            | some e2 =>
                constructor
                · unfold SchedulerState.heap_ids
                  rw [hfr1]
                  exact hnd
                · unfold SchedulerState.heap_ids SchedulerState.map_ids
                  rw [hfr1, hfr2]
                  exact hperm
            | none =>
                constructor
                · unfold SchedulerState.heap_ids
                  show ((s1.event_heap.tail).map (fun e => e.2.1)).Nodup
                  rw [hfr1, hh]
                  rw [hhid] at hnd
                  exact (List.nodup_cons.mp hnd).2
                · unfold SchedulerState.heap_ids SchedulerState.map_ids
                  show ((s1.event_heap.tail).map (fun e => e.2.1)).Perm
                    ((aerase s1.event_map first.2.1).map (fun e => e.1))
                  rw [hfr1, hfr2, hh, aerase_map_fst]
                  rw [hhid] at hperm
                  have hrest : (rest.map (fun e => e.2.1))
                      = (first.2.1 :: rest.map (fun e => e.2.1)).erase first.2.1 :=
                    (List.erase_cons_head _ _).symm
                  rw [List.tail_cons]
                  rw [hrest]
                  exact hperm.erase first.2.1
      · simp only [hlt, if_false]
        exact hs

/-- The fired branch of one tick step: if the head event is strictly due and
`__process_event` returns without raising, the step pops the head from the
heap and drops its id from the side table. -/
theorem periodic_check_step_fired (s : SchedulerState) (now : Int)
    (e : HeapEntry) (rest : List HeapEntry) (s1 : SchedulerState)
    (hheap : s.event_heap = e :: rest) (hlt : e.1 < now)
    (hproc : s.process_event now e.2.1 e.2.2 = (none, s1)) :
    s.periodic_check_step now
      = (none, { s1 with event_heap := rest,
                         event_map := aerase s1.event_map e.2.1 }) := by
  have hfr := process_event_frame s now e.2.1 e.2.2
  rw [hproc] at hfr
  unfold SchedulerState.periodic_check_step
  rw [hheap]
  have hgt : now > e.1 := hlt
  simp only [hgt, if_true, hproc]
  rw [hfr.1, hheap]
  rfl

/-- A `wake_up` event whose referenced project, or task within an existing
project, no longer exists is processed without error and without touching any
project. -/
theorem process_event_stale_noop (s : SchedulerState) (now : Int) (id : Nat)
    (ev : EventTaskWakeUp)
    (hev : alookup s.event_map id = some ev)
    (hstale : alookup s.projects ev.project_uuid = none ∨
      ∃ proj, alookup s.projects ev.project_uuid = some proj ∧
        alookup proj.metadata ev.task_uuid = none) :
    s.process_event now id "wake_up" = (none, s) := by
  unfold SchedulerState.process_event
  rw [if_pos rfl]
  rcases hstale with h | ⟨proj, hp, hm⟩
  · simp [hev, h]
  · simp [hev, hp, hm]

/-- C5 (Scenario E): firing a due `wake_up` event whose referenced project —
or task within a still-existing project — no longer exists raises no error and
changes no project state, yet the event is consumed: removed from both the
event heap and the event-id side table.  Moreover the two stay in sync (ids
unique, equal id sets) after every `schedule` with a fresh `uuid4` and after
every tick step (hence after every pop). -/
theorem stale_wake_up_consumed_and_queues_stay_in_sync :
    (∀ (s : SchedulerState) (now t : Int) (id : Nat)
        (rest : List HeapEntry) (ev : EventTaskWakeUp),
      s.event_heap = (t, id, "wake_up") :: rest →
      t < now →
      alookup s.event_map id = some ev →
      (alookup s.projects ev.project_uuid = none ∨
        ∃ proj, alookup s.projects ev.project_uuid = some proj ∧
          alookup proj.metadata ev.task_uuid = none) →
      s.periodic_check_step now
        = (none, SchedulerState.mk s.projects rest (aerase s.event_map id))) ∧
    (∀ (s : SchedulerState) (t : Int) (id : Nat) (ty : String)
        (ev : EventTaskWakeUp),
      s.in_sync → alookup s.event_map id = none →
      (s.schedule t id ty ev).in_sync) ∧
    (∀ (s : SchedulerState) (now : Int),
      s.in_sync → (s.periodic_check_step now).2.in_sync) := by
  refine ⟨?_, schedule_preserves_in_sync, periodic_check_step_preserves_in_sync⟩
  intro s now t id rest ev hheap hlt hev hstale
  have hnoop : s.process_event now id "wake_up" = (none, s) :=
    process_event_stale_noop s now id ev hev hstale
  exact periodic_check_step_fired s now (t, id, "wake_up") rest s hheap hlt hnoop

/-- Witness for C5 at concrete inputs: a due event for a deleted project is
consumed without error; a fresh `schedule` and a tick step preserve the sync
invariant. -/
theorem stale_wake_up_consumed_and_queues_stay_in_sync_witness :
    (({ projects := [], event_heap := [(3, 7, "wake_up")],
        event_map := [(7, { project_uuid := 5, task_uuid := 9 })] }
        : SchedulerState).periodic_check_step 4
      = (none, SchedulerState.mk []
          [] (aerase [(7, { project_uuid := 5, task_uuid := 9 })] 7))) ∧
    (SchedulerState.schedule
      { projects := [], event_heap := [(1, 2, "wake_up")],
        event_map := [(2, { project_uuid := 0, task_uuid := 0 })] }
      5 3 "wake_up" { project_uuid := 0, task_uuid := 1 }).in_sync ∧
    (({ projects := [], event_heap := [(3, 7, "wake_up")],
        event_map := [(7, { project_uuid := 5, task_uuid := 9 })] }
        : SchedulerState).periodic_check_step 4).2.in_sync := by
  refine ⟨?_, ?_, ?_⟩
  · exact stale_wake_up_consumed_and_queues_stay_in_sync.1
      { projects := [], event_heap := [(3, 7, "wake_up")],
        event_map := [(7, { project_uuid := 5, task_uuid := 9 })] }
      4 3 7 [] { project_uuid := 5, task_uuid := 9 }
      rfl (by decide) (by decide) (Or.inl (by decide))
  · exact stale_wake_up_consumed_and_queues_stay_in_sync.2.1
      { projects := [], event_heap := [(1, 2, "wake_up")],
        event_map := [(2, { project_uuid := 0, task_uuid := 0 })] }
      5 3 "wake_up" { project_uuid := 0, task_uuid := 1 }
      (by constructor
          · decide
          · decide)
      (by decide)
  · exact stale_wake_up_consumed_and_queues_stay_in_sync.2.2
      { projects := [], event_heap := [(3, 7, "wake_up")],
        event_map := [(7, { project_uuid := 5, task_uuid := 9 })] }
      4
      (by constructor
          · decide
          · decide)

theorem alookup_isSome_iff_mem {β : Type} (l : List (Nat × β)) (k : Nat) :
    (alookup l k).isSome ↔ k ∈ l.map (fun e => e.1) := by
  induction l with
  | nil => simp [alookup]
  | cons x xs ih =>
      by_cases hx : x.1 = k
      · simp [alookup, hx]
      · simp only [alookup, hx, if_false, List.map_cons, List.mem_cons, ih]
        constructor
        · intro h
          exact Or.inr h
        · intro h
          rcases h with h | h
          · exact absurd h.symm hx
          · exact h

theorem aset_keys_of_lookup_some {β : Type} (l : List (Nat × β)) (k : Nat)
    (v w : β) (h : alookup l k = some v) :
    (aset l k w).map (fun e => e.1) = l.map (fun e => e.1) := by
  induction l with
  | nil => simp [alookup] at h
  | cons x xs ih =>
      by_cases hx : x.1 = k
      · simp [aset, hx]
      · simp only [alookup, hx, if_false] at h
        simp [aset, hx, ih h]

theorem save_project_spec_skip (db : DatabaseState) (pid : Nat)
    (proj : TaskGraphProject)
    (hp : alookup db.projects pid = some proj)
    (hh : alookup db.project_hashes pid = some proj.get_data_hash) :
    db.save_project pid true = (none, db, false) := by
  unfold DatabaseState.save_project
  simp [hp, hh]

theorem save_project_spec_write (db : DatabaseState) (pid : Nat)
    (proj : TaskGraphProject) (check_hash : Bool)
    (hp : alookup db.projects pid = some proj)
    (hcond : (check_hash &&
      (match alookup db.project_hashes pid with
       | some h => decide (h = proj.get_data_hash)
       | none => false)) = false) :
    db.save_project pid check_hash
      = (none, DatabaseState.mk
          (aset db.projects pid proj.purge_metadata)
          (aset db.project_hashes pid proj.purge_metadata.get_data_hash)
          (aset db.files pid proj.purge_metadata)
          db.index_file, true) := by
  unfold DatabaseState.save_project
  simp only [hp, hcond, Bool.false_eq_true, if_false]

/-- One `save_project` call never raises (for an existing project id), keeps
the project-key list, leaves every other project's entries alone, and leaves
the stored hash for its project equal to that project's current data hash. -/
theorem save_project_establishes_record (db : DatabaseState) (pid : Nat)
    (c : Bool) (proj : TaskGraphProject)
    (hp : alookup db.projects pid = some proj) :
    (db.save_project pid c).1 = none ∧
    ((db.save_project pid c).2.1.projects.map (fun e => e.1)
      = db.projects.map (fun e => e.1)) ∧
    (∃ q, alookup (db.save_project pid c).2.1.projects pid = some q ∧
      alookup (db.save_project pid c).2.1.project_hashes pid
        = some q.get_data_hash) ∧
    (∀ r, r ≠ pid →
      alookup (db.save_project pid c).2.1.projects r = alookup db.projects r ∧
      alookup (db.save_project pid c).2.1.project_hashes r
        = alookup db.project_hashes r) := by
  cases hcond : (c &&
      (match alookup db.project_hashes pid with
       | some h => decide (h = proj.get_data_hash)
       | none => false)) with
  | true =>
      rw [Bool.and_eq_true] at hcond
      have hc : c = true := hcond.1
      have hmatch : alookup db.project_hashes pid = some proj.get_data_hash := by
        cases hl : alookup db.project_hashes pid with
        | none =>
            rw [hl] at hcond
            exact absurd hcond.2 (by simp)
        | some h =>
            rw [hl] at hcond
            have := of_decide_eq_true hcond.2
            rw [this]
      subst hc
      rw [save_project_spec_skip db pid proj hp hmatch]
      exact ⟨rfl, rfl, ⟨proj, hp, hmatch⟩, fun r _ => ⟨rfl, rfl⟩⟩
  | false =>
      rw [save_project_spec_write db pid proj c hp hcond]
      refine ⟨rfl, aset_keys_of_lookup_some _ _ _ _ hp,
        ⟨proj.purge_metadata, alookup_aset_self _ _ _, alookup_aset_self _ _ _⟩,
        ?_⟩
      intro r hr
      exact ⟨alookup_aset_ne _ _ _ _ (fun h => hr h.symm),
        alookup_aset_ne _ _ _ _ (fun h => hr h.symm)⟩

/-- A full save pass never raises, keeps the project-key list, and leaves
every saved project's stored hash equal to its current data hash. -/
theorem save_projects_go_ok (c : Bool) (ks : List Nat) (db : DatabaseState)
    (hks : ∀ k ∈ ks, (alookup db.projects k).isSome)
    (hnd : ks.Nodup) :
    (DatabaseState.save_projects_go db c ks).1 = none ∧
    ((DatabaseState.save_projects_go db c ks).2.1.projects.map (fun e => e.1)
      = db.projects.map (fun e => e.1)) ∧
    (∀ k ∈ ks, ∃ q,
      alookup (DatabaseState.save_projects_go db c ks).2.1.projects k = some q ∧
      alookup (DatabaseState.save_projects_go db c ks).2.1.project_hashes k
        = some q.get_data_hash) ∧
    (∀ r, r ∉ ks →
      alookup (DatabaseState.save_projects_go db c ks).2.1.projects r
        = alookup db.projects r ∧
      alookup (DatabaseState.save_projects_go db c ks).2.1.project_hashes r
        = alookup db.project_hashes r) := by
  induction ks generalizing db with
  | nil => exact ⟨rfl, rfl, fun k hk => absurd hk (List.not_mem_nil k),
      fun r _ => ⟨rfl, rfl⟩⟩
  | cons k rest ih =>
      have hk := hks k (List.mem_cons_self k rest)
      rw [Option.isSome_iff_exists] at hk
      obtain ⟨proj, hp⟩ := hk
      have step := save_project_establishes_record db k c proj hp
      cases hsp : db.save_project k c with
      | mk e pr =>
          rw [hsp] at step
          cases pr with
          | mk db1 wrote =>
              have he : e = none := step.1
              subst he
              have hkeys1 : db1.projects.map (fun x => x.1)
                  = db.projects.map (fun x => x.1) := step.2.1
              have hks1 : ∀ k2 ∈ rest, (alookup db1.projects k2).isSome := by
                intro k2 hk2
                rw [alookup_isSome_iff_mem, hkeys1,
                  ← alookup_isSome_iff_mem]
                exact hks k2 (List.mem_cons_of_mem k hk2)
              have ih1 := ih db1 hks1 (List.nodup_cons.mp hnd).2
              cases hgo : DatabaseState.save_projects_go db1 c rest with
              | mk e2 pr2 =>
                  rw [hgo] at ih1
                  cases pr2 with
                  | mk db2 n =>
                      have he2 : e2 = none := ih1.1
                      subst he2
                      have hwhole : DatabaseState.save_projects_go db c (k :: rest)
                          = (none, db2, (if wrote then 1 else 0) + n) := by
                        unfold DatabaseState.save_projects_go
                        rw [hsp]
                        show (match DatabaseState.save_projects_go db1 c rest with
                          | (e, db2, n) =>
                              (e, db2, (if wrote = true then 1 else 0) + n))
                          = (none, db2, (if wrote = true then 1 else 0) + n)
                        rw [hgo]
                      rw [hwhole]
                      refine ⟨rfl, ih1.2.1.trans hkeys1, ?_, ?_⟩
                      · intro k2 hk2
                        rcases List.mem_cons.mp hk2 with rfl | hk2
                        · obtain ⟨q, hq1, hq2⟩ := step.2.2.1
                          have hnotk : k2 ∉ rest := (List.nodup_cons.mp hnd).1
                          have hfr := ih1.2.2.2 k2 hnotk
                          exact ⟨q, hfr.1.trans hq1, hfr.2.trans hq2⟩
                        · exact ih1.2.2.1 k2 hk2
                      · intro r hr
                        have hr1 : r ≠ k := fun h => hr (h ▸ List.mem_cons_self k rest)
                        have hr2 : r ∉ rest := fun h => hr (List.mem_cons_of_mem k h)
                        have hfr1 := step.2.2.2 r hr1
                        have hfr2 := ih1.2.2.2 r hr2
                        exact ⟨hfr2.1.trans hfr1.1, hfr2.2.trans hfr1.2⟩

/-- With every stored hash already equal to the project's current data hash,
a hash-checked save pass writes nothing and changes nothing. -/
theorem save_projects_go_skip_all (ks : List Nat) (db : DatabaseState)
    (h : ∀ k ∈ ks, ∃ q, alookup db.projects k = some q ∧
      alookup db.project_hashes k = some q.get_data_hash) :
    DatabaseState.save_projects_go db true ks = (none, db, 0) := by
  induction ks with
  | nil => rfl
  | cons k rest ih =>
      obtain ⟨q, hq, hh⟩ := h k (List.mem_cons_self k rest)
      have hwhole : DatabaseState.save_projects_go db true (k :: rest)
          = (none, db, 0) := by
        unfold DatabaseState.save_projects_go
        rw [save_project_spec_skip db k q hq hh]
        show (match DatabaseState.save_projects_go db true rest with
          | (e, db2, n) => (e, db2, (if false = true then 1 else 0) + n))
          = (none, db, 0)
        rw [ih (fun k2 hk2 => h k2 (List.mem_cons_of_mem k hk2))]
        rfl
      rw [hwhole]

/-- C6: `save_project(id, check_hash = True)` skips the file write entirely
when the stored hash for `id` equals the project's current data hash, and
otherwise (hash check off, no stored hash, or differing hash) purges
metadata, serializes and writes the project file, and records the new hash;
consequently (Scenario D) `save_database(check_hash = True)` twice with no
intervening mutation performs zero per-project file writes on the second
call (the counter is the number of project files written). -/
theorem save_project_hash_gate_and_second_save_writes_zero :
    (∀ (db : DatabaseState) (pid : Nat) (proj : TaskGraphProject),
      alookup db.projects pid = some proj →
      (alookup db.project_hashes pid = some proj.get_data_hash →
        db.save_project pid true = (none, db, false)) ∧
      (∀ check_hash : Bool,
        (check_hash &&
          (match alookup db.project_hashes pid with
           | some h => decide (h = proj.get_data_hash)
           | none => false)) = false →
        db.save_project pid check_hash
          = (none, DatabaseState.mk
              (aset db.projects pid proj.purge_metadata)
              (aset db.project_hashes pid proj.purge_metadata.get_data_hash)
              (aset db.files pid proj.purge_metadata)
              db.index_file, true))) ∧
    (∀ db : DatabaseState, (db.projects.map (fun e => e.1)).Nodup →
      (db.save_database true).1 = none ∧
      (db.save_database true).2.1.save_database true
        = (none, (db.save_database true).2.1, 0)) := by
  refine ⟨?_, ?_⟩
  · intro db pid proj hp
    exact ⟨fun hh => save_project_spec_skip db pid proj hp hh,
      fun c hc => save_project_spec_write db pid proj c hp hc⟩
  · intro db hnd
    have hks : ∀ k ∈ db.projects.map (fun e => e.1),
        (alookup db.projects k).isSome :=
      fun k hk => (alookup_isSome_iff_mem _ _).mpr hk
    have goo := save_projects_go_ok true (db.projects.map (fun e => e.1))
      db hks hnd
    cases hgo : DatabaseState.save_projects_go db true
        (db.projects.map (fun e => e.1)) with
    | mk e pr =>
        rw [hgo] at goo
        cases pr with
        | mk db2 n =>
            have he : e = none := goo.1
            subst he
            have hsd1 : db.save_database true
                = (none, DatabaseState.mk db2.projects db2.project_hashes
                    db2.files (some (db2.projects.map (fun e => e.1))), n) := by
              unfold DatabaseState.save_database DatabaseState.save_projects
              rw [hgo]
            have hrec3 : ∀ k ∈ (DatabaseState.mk db2.projects db2.project_hashes
                  db2.files (some (db2.projects.map (fun e => e.1)))).projects.map
                    (fun e => e.1),
                ∃ q, alookup (DatabaseState.mk db2.projects db2.project_hashes
                    db2.files (some (db2.projects.map (fun e => e.1)))).projects k
                    = some q ∧
                  alookup (DatabaseState.mk db2.projects db2.project_hashes
                    db2.files (some (db2.projects.map (fun e => e.1)))).project_hashes k
                    = some q.get_data_hash := by
              intro k hk
              have hk2 : k ∈ db.projects.map (fun e => e.1) := by
                rw [← goo.2.1]
                exact hk
              exact goo.2.2.1 k hk2
            have hskip := save_projects_go_skip_all
              ((DatabaseState.mk db2.projects db2.project_hashes db2.files
                (some (db2.projects.map (fun e => e.1)))).projects.map
                  (fun e => e.1))
              (DatabaseState.mk db2.projects db2.project_hashes db2.files
                (some (db2.projects.map (fun e => e.1))))
              hrec3
            have hsd2 : (DatabaseState.mk db2.projects db2.project_hashes
                  db2.files (some (db2.projects.map (fun e => e.1)))).save_database
                  true
                = (none, DatabaseState.mk db2.projects db2.project_hashes
                    db2.files (some (db2.projects.map (fun e => e.1))), 0) := by
              unfold DatabaseState.save_database DatabaseState.save_projects
              rw [hskip]
            constructor
            · rw [hsd1]
            · rw [hsd1]
              exact hsd2

/-- Witness for C6 at concrete inputs: a one-project database — a matching
stored hash skips the write, a missing stored hash forces the write, and the
second of two consecutive hash-checked `save_database` calls writes zero
project files. -/
theorem save_project_hash_gate_and_second_save_writes_zero_witness :
    (DatabaseState.save_project
      { projects := [(0, { name := "p", dag := { nodes := [0], edges := [] },
                           metadata := [(0, { status := some "Active" })] })],
        project_hashes := [(0, { name := "p",
                                 dag := { nodes := [0], edges := [] },
                                 metadata := [(0, { status := some "Active" })] })],
        files := [], index_file := none } 0 true
      = (none,
         { projects := [(0, { name := "p", dag := { nodes := [0], edges := [] },
                              metadata := [(0, { status := some "Active" })] })],
           project_hashes := [(0, { name := "p",
                                    dag := { nodes := [0], edges := [] },
                                    metadata := [(0, { status := some "Active" })] })],
           files := [], index_file := none }, false)) ∧
    (DatabaseState.save_project
      { projects := [(0, { name := "p", dag := { nodes := [0], edges := [] },
                           metadata := [(0, { status := some "Active" })] })],
        project_hashes := [], files := [], index_file := none } 0 true).2.2
      = true ∧
    ((DatabaseState.save_database
      { projects := [(0, { name := "p", dag := { nodes := [0], edges := [] },
                           metadata := [(0, { status := some "Active" })] })],
        project_hashes := [], files := [], index_file := none } true).2.1.save_database
        true).2.2 = 0 := by
  refine ⟨?_, ?_, ?_⟩
  · exact (save_project_hash_gate_and_second_save_writes_zero.1
      { projects := [(0, { name := "p", dag := { nodes := [0], edges := [] },
                           metadata := [(0, { status := some "Active" })] })],
        project_hashes := [(0, { name := "p",
                                 dag := { nodes := [0], edges := [] },
                                 metadata := [(0, { status := some "Active" })] })],
        files := [], index_file := none } 0
      { name := "p", dag := { nodes := [0], edges := [] },
        metadata := [(0, { status := some "Active" })] }
      (by decide)).1 (by decide)
  · rw [(save_project_hash_gate_and_second_save_writes_zero.1
      { projects := [(0, { name := "p", dag := { nodes := [0], edges := [] },
                           metadata := [(0, { status := some "Active" })] })],
        project_hashes := [], files := [], index_file := none } 0
      { name := "p", dag := { nodes := [0], edges := [] },
        metadata := [(0, { status := some "Active" })] }
      (by decide)).2 true (by decide)]
  · rw [(save_project_hash_gate_and_second_save_writes_zero.2
      { projects := [(0, { name := "p", dag := { nodes := [0], edges := [] },
                           metadata := [(0, { status := some "Active" })] })],
        project_hashes := [], files := [], index_file := none }
      (by decide)).2]
